import Mathlib

/-!
# Verification of the Survev SPI calculator core

Shallow embedding of the parsing/scoring core of `src/survev_spi_app.py`
(and, where noted, of the variant `src/unnamed/part_000`).  Text is
`List Char`; Python `float` arithmetic is modelled by exact rationals `ℚ`;
Python `int` by `ℤ`; Python functions that can raise are embedded as
`Except Unit`.  The ordered-regex field extractors are embedded as direct
character scanners implementing the leftmost-search backtracking semantics
of each concrete pattern of the source.
-/

/-- ASCII uppercase of a character (used for the `re.I` case-insensitive
matching of the source's patterns). -/
def upCh (c : Char) : Char :=
  if 97 ≤ c.toNat && c.toNat ≤ 122 then Char.ofNat (c.toNat - 32) else c

/-- `\d` of the source's patterns (ASCII digits; the inputs are ASCII). -/
def isDigitCh (c : Char) : Bool :=
  48 ≤ c.toNat && c.toNat ≤ 57

/-- `\s` of Python's `re` on ASCII text: space, tab, newline, carriage
return, vertical tab, form feed. -/
def isSpaceB (c : Char) : Bool :=
  c.toNat == 32 || (9 ≤ c.toNat && c.toNat ≤ 13)

/-- The class `[^\S\r\n]` of `parse_block`'s preprocessing: whitespace other
than `\r` and `\n` (horizontal whitespace). -/
def isHSpace (c : Char) : Bool :=
  isSpaceB c && !(c.toNat == 10) && !(c.toNat == 13)

/-- `\w` of Python's `re` on ASCII text: letters, digits, underscore. -/
def isWordCh (c : Char) : Bool :=
  isDigitCh c || (65 ≤ c.toNat && c.toNat ≤ 90) ||
    (97 ≤ c.toNat && c.toNat ≤ 122) || c.toNat == 95

/-- Numeric value of an ASCII digit character. -/
def toDigit (c : Char) : ℕ := c.toNat - 48

/-- The ASCII digit character of `d < 10`. -/
def digitChar (d : ℕ) : Char := Char.ofNat (48 + d)

def chColon : Char := ':'

/-- Python's `str.strip()`: drop leading and trailing whitespace. -/
def pyStrip (l : List Char) : List Char :=
  ((l.dropWhile isSpaceB).reverse.dropWhile isSpaceB).reverse

/-- Value of a digit string (the source's `float` / `int` on a `(\d+)`
regex group; such a group is all digits). -/
def natOfDigits (l : List Char) : ℕ :=
  l.foldl (fun a c => 10 * a + toDigit c) 0

/-- Python's `float()` on a string drawn from the class `[\d.]+`
(digits and dots): it succeeds iff the string has at least one digit and
at most one dot, giving integer part plus fractional part.  Any other
character makes the parse fail, as `float` would. -/
def ratOfDigitsDot (l : List Char) : ℚ :=
  let ip := l.takeWhile isDigitCh
  let rest := l.drop ip.length
  match rest with
  | _ :: fp => (natOfDigits ip : ℚ) + (natOfDigits fp : ℚ) / (10 ^ fp.length : ℚ)
  | [] => (natOfDigits ip : ℚ)

def floatOfDigitsDot (l : List Char) : Option ℚ :=
  if l.all (fun c => isDigitCh c || c.toNat == 46) && l.any isDigitCh &&
      l.count (Char.ofNat 46) ≤ 1 then
    some (ratOfDigitsDot l)
  else none

/-- Python 3's `round()` to an integer: round half to even (banker's
rounding), as `int(round(x))` does in the source. -/
def pyRound (q : ℚ) : ℤ :=
  let f := ⌊q⌋
  let d := q - f
  if d < 1 / 2 then f
  else if 1 / 2 < d then f + 1
  else if f % 2 = 0 then f else f + 1

/-- `ModeStats` of `src/survev_spi_app.py` lines 41-47: one mode's
aggregate statistics.  Python `int` fields are `ℤ`, `float` fields `ℚ`. -/
structure ModeStats where
  games : ℤ
  kills : ℤ
  win_pct : ℚ
  avg_survived_sec : ℤ
  avg_damage : ℚ
deriving DecidableEq, Repr

/-- The constants of lines 21-23 of the source. -/
def CONFIDENCE_CONST : ℤ := 50

def NEUTRAL_BASELINE : ℚ := 300

def SURVIVAL_CAP_SEC : ℤ := 180

/-- The component dictionary `spi_components` returns (fixed keys Base,
Survival, Damage, WinBonus). -/
structure SpiComponents where
  base : ℚ
  survival : ℚ
  damage : ℚ
  winBonus : ℚ
deriving DecidableEq, Repr

/-- `ModeStats.spi_components`, lines 49-59: base, survival (capped via
`min` against 180 before scaling), damage, win bonus. -/
def ModeStats.spi_components (ms : ModeStats) : SpiComponents :=
  { base := if 0 < ms.games then ((ms.kills : ℚ) / (ms.games : ℚ)) * 100 else 0
    survival := ((min ms.avg_survived_sec SURVIVAL_CAP_SEC : ℤ) : ℚ) /
      (SURVIVAL_CAP_SEC : ℚ) * 50
    damage := ms.avg_damage / 500 * 40
    winBonus := ms.win_pct * 2 }

/-- `ModeStats.spi`, lines 61-63: the sum of the four components. -/
def ModeStats.spi (ms : ModeStats) : ℚ :=
  ms.spi_components.base + ms.spi_components.survival +
    ms.spi_components.damage + ms.spi_components.winBonus

/-- `ModeStats.adj_spi`, lines 65-68: shrink toward the neutral baseline
with weight `games / (games + 50)` (0 when `games = 0`). -/
def ModeStats.adj_spi (ms : ModeStats) : ℚ :=
  let s := ms.spi
  let w : ℚ :=
    if 0 < ms.games then (ms.games : ℚ) / ((ms.games : ℚ) + (CONFIDENCE_CONST : ℚ))
    else 0
  NEUTRAL_BASELINE + w * (s - NEUTRAL_BASELINE)

/-- `TIERS`, lines 11-19 of the source (Bronze floor at `-10^9`). -/
def TIERS : List (String × ℚ) :=
  [("Grandmaster", 750), ("Master", 650), ("Diamond", 550), ("Platinum", 450),
   ("Gold", 350), ("Silver", 250), ("Bronze", -(10 ^ 9))]

/-- The loop body of `tier_from_score`: first threshold with
`score ≥ threshold` wins; falling off the list returns Bronze. -/
def tierGo (score : ℚ) : List (String × ℚ) → String
  | [] => "Bronze"
  | (n, t) :: rest => if t ≤ score then n else tierGo score rest

/-- `tier_from_score`, lines 35-39. -/
def tier_from_score (score : ℚ) : String :=
  tierGo score TIERS

/-- `parse_time_to_seconds`, lines 26-33: strip, then full-match
`^(\d{1,2}):(\d{2})$` and return `minutes*60 + seconds`.  After the strip
the stripped text has no trailing newline, so the anchored match accepts
exactly the four- and five-character shapes below. -/
def parse_time_to_seconds (s : List Char) : Option ℤ :=
  match pyStrip s with
  | [a, x, b, c] =>
    if isDigitCh a && x == chColon && isDigitCh b && isDigitCh c then
      some ((toDigit a : ℤ) * 60 + ((toDigit b : ℤ) * 10 + (toDigit c : ℤ)))
    else none
  | [a, a2, x, b, c] =>
    if isDigitCh a && isDigitCh a2 && x == chColon && isDigitCh b && isDigitCh c then
      some (((toDigit a : ℤ) * 10 + (toDigit a2 : ℤ)) * 60 +
        ((toDigit b : ℤ) * 10 + (toDigit c : ℤ)))
    else none
  | _ => none

/-- The `m:ss` rendering of a second count below 6000, as the UI's
f-string `f"{sec//60}:{sec%60:02d}"` (line 174) prints it: minutes without
padding (one or two digits here), colon, zero-padded two-digit seconds. -/
def fmtTime (n : ℕ) : List Char :=
  (if n / 60 < 10 then [digitChar (n / 60)]
   else [digitChar (n / 60 / 10), digitChar (n / 60 % 10)]) ++
    chColon :: [digitChar (n % 60 / 10), digitChar (n % 60 % 10)]

/-- Modelled from the spec: "exactly one-or-two-digit minutes and exactly
two-digit seconds" — the shape a time string itself must have, used to
compare the spec's rejection clause with the code's behaviour. -/
def isTimeShape (t : List Char) : Bool :=
  match t with
  | [a, x, b, c] => isDigitCh a && x == chColon && isDigitCh b && isDigitCh c
  | [a, a2, x, b, c] =>
    isDigitCh a && isDigitCh a2 && x == chColon && isDigitCh b && isDigitCh c
  | _ => false

/-- `overall_adj_spi`, lines 133-138: games-weighted mean of the adjusted
scores, `0.0` when the total game count is zero.  The Python dict of modes
is embedded as an association list. -/
def overall_adj_spi (modes : List (String × ModeStats)) : ℚ :=
  let total : ℤ := (modes.map (fun p => p.2.games)).sum
  if total = 0 then 0
  else (modes.map (fun p => p.2.adj_spi * (p.2.games : ℚ))).sum / (total : ℚ)

/-! ## The paste parser of `src/survev_spi_app.py`

Each regex of the source is embedded as a scanner that implements its
backtracking semantics at one start position; `searchB` supplies
`re.search`'s leftmost-position semantics, threading the character before
the current position for `\b` word boundaries. -/

/-- Case-insensitive literal match: pattern characters (stored uppercase)
against the text, returning the remainder on success. -/
def ciMatch : List Char → List Char → Option (List Char)
  | [], s => some s
  | _ :: _, [] => none
  | p :: ps, c :: cs => if upCh c == p then ciMatch ps cs else none

/-- `\b` before a token that starts with a word character: start of text
or a non-word character before. -/
def boundaryBefore (prev : Option Char) (first : Char) : Bool :=
  isWordCh first &&
    (match prev with
     | none => true
     | some p => !isWordCh p)

/-- `\b` after a word character: end of text or a non-word character next. -/
def boundaryAfterWord (rest : List Char) : Bool :=
  match rest with
  | [] => true
  | c :: _ => !isWordCh c

/-- `re.search`'s scan: try the matcher at every start position from the
left, remembering the previous character for word boundaries. -/
def searchB (f : Option Char → List Char → Option (List Char)) :
    Option Char → List Char → Option (List Char)
  | prev, [] => f prev []
  | prev, c :: rest =>
    match f prev (c :: rest) with
    | some g => some g
    | none => searchB f (some c) rest

/-- A capture-group token `(cls+)` at the current position: greedy maximal
run of class characters (nothing follows the group in the source's
patterns, so the run is never given back). -/
def capCls (cls : Char → Bool) (s : List Char) : Option (List Char) :=
  match s with
  | c :: cs => if cls c then some ((c :: cs).takeWhile cls) else none
  | [] => none

/-- Lazy `.*?` before a token, `.` not matching a newline (the source sets
no DOTALL flag): try the token here, else skip one non-newline character. -/
def lazyMatch (tok : List Char → Option (List Char)) : List Char → Option (List Char)
  | [] => tok []
  | c :: rest =>
    match tok (c :: rest) with
    | some g => some g
    | none => if c.toNat == 10 then none else lazyMatch tok rest

def isNumDot (c : Char) : Bool := isDigitCh c || c.toNat == 46

def isNumDotComma (c : Char) : Bool := isDigitCh c || c.toNat == 46 || c.toNat == 44

def lblGAME : List Char := [ 'G', 'A', 'M', 'E' ]
def lblKILL : List Char := [ 'K', 'I', 'L', 'L' ]
def lblWIN : List Char := [ 'W', 'I', 'N' ]
def lblAVG : List Char := [ 'A', 'V', 'G' ]
def lblSURVIVED : List Char := [ 'S', 'U', 'R', 'V', 'I', 'V', 'E', 'D' ]
def lblDAMAGE : List Char := [ 'D', 'A', 'M', 'A', 'G', 'E' ]

/-- `\bLBLS?\b` (case-insensitive): boundary, the label, an optional `S`,
and a word boundary after.  If an `s` follows the label the boundary must
fall after it (backtracking to the no-`s` alternative cannot succeed, the
`s` itself being a word character); returns the remainder. -/
def matchWordS (lbl : List Char) (prev : Option Char) (s : List Char) :
    Option (List Char) :=
  match s with
  | [] => none
  | c :: _ =>
    if boundaryBefore prev c then
      match ciMatch lbl s with
      | none => none
      | some rest =>
        match rest with
        | [] => some []
        | r :: rs =>
          if upCh r == 'S' then (if boundaryAfterWord rs then some rs else none)
          else (if isWordCh r then none else some rest)
    else none

/-- `(\d+)\s*GAMES?` at one position: a maximal digit run (backtracking
inside the run cannot help, `GAME` not starting with a digit or space),
whitespace, then the label. -/
def matchGamesA (_prev : Option Char) (s : List Char) : Option (List Char) :=
  let ds := s.takeWhile isDigitCh
  match ds with
  | [] => none
  | _ :: _ =>
    match ciMatch lblGAME ((s.drop ds.length).dropWhile isSpaceB) with
    | some _ => some ds
    | none => none

/-- `\bGames?\b.*?(\d+)` at one position. -/
def matchGamesB (prev : Option Char) (s : List Char) : Option (List Char) :=
  (matchWordS lblGAME prev s).bind (lazyMatch (capCls isDigitCh))

/-- `\bKILLS?\b.*?(\d+)` at one position. -/
def matchKills (prev : Option Char) (s : List Char) : Option (List Char) :=
  (matchWordS lblKILL prev s).bind (lazyMatch (capCls isDigitCh))

/-- The tail `\s*%?\b.*?([\d.]+)` after `WIN`.  Backtracking order of
`\s*%?\b`: all whitespace then `%` (boundary after `%` needs a word
character next), all whitespace without `%` (boundary needs a word
character next when whitespace was consumed, a non-word one otherwise),
and finally the empty-whitespace alternative when whitespace was present
(the boundary between `N` and the space always holds, and the lazy dots
may then cross the run unless it holds a newline). -/
def winAfterLabel (t : List Char) : Option (List Char) :=
  let t1 := t.dropWhile isSpaceB
  let hasWs : Bool :=
    match t with
    | c :: _ => isSpaceB c
    | [] => false
  let caseA : Option (List Char) :=
    match t1 with
    | c :: x :: u => if c.toNat == 37 && isWordCh x then lazyMatch (capCls isNumDot) (x :: u) else none
    | _ => none
  let caseB : Option (List Char) :=
    match t1 with
    | x :: _ =>
      if (if hasWs then isWordCh x else !isWordCh x) then lazyMatch (capCls isNumDot) t1
      else none
    | [] => none
  let caseC : Option (List Char) :=
    if hasWs then lazyMatch (capCls isNumDot) t else none
  (caseA.orElse fun _ => caseB).orElse fun _ => caseC

/-- `\bWIN\s*%?\b.*?([\d.]+)` at one position. -/
def matchWin (prev : Option Char) (s : List Char) : Option (List Char) :=
  match s with
  | [] => none
  | c :: _ =>
    if boundaryBefore prev c then (ciMatch lblWIN s).bind winAfterLabel
    else none

/-- `\bAVG\s*LBL\b` (case-insensitive), returning the remainder after the
final word boundary. -/
def matchAvgLbl (lbl : List Char) (prev : Option Char) (s : List Char) :
    Option (List Char) :=
  match s with
  | [] => none
  | c :: _ =>
    if boundaryBefore prev c then
      (ciMatch lblAVG s).bind fun t =>
        match ciMatch lbl (t.dropWhile isSpaceB) with
        | some r => if boundaryAfterWord r then some r else none
        | none => none
    else none

/-- The group `(\d{1,2}:\d{2})`: two-digit minutes tried first (greedy
`\d{1,2}`), then one. -/
def tryTime2 (s : List Char) : Option (List Char) :=
  match s with
  | a :: b :: x :: c :: d :: _ =>
    if isDigitCh a && isDigitCh b && x == chColon && isDigitCh c && isDigitCh d then
      some [a, b, x, c, d]
    else none
  | _ => none

def tryTime1 (s : List Char) : Option (List Char) :=
  match s with
  | a :: x :: c :: d :: _ =>
    if isDigitCh a && x == chColon && isDigitCh c && isDigitCh d then
      some [a, x, c, d]
    else none
  | _ => none

def tryTimeToken (s : List Char) : Option (List Char) :=
  (tryTime2 s).orElse fun _ => tryTime1 s

/-- `\bAVG\s*SURVIVED\b.*?(\d{1,2}:\d{2})` at one position. -/
def matchTimeLbl (prev : Option Char) (s : List Char) : Option (List Char) :=
  (matchAvgLbl lblSURVIVED prev s).bind (lazyMatch tryTimeToken)

/-- `\bAVG\s*DAMAGE\b.*?([\d.]+)` at one position. -/
def matchDamage (prev : Option Char) (s : List Char) : Option (List Char) :=
  (matchAvgLbl lblDAMAGE prev s).bind (lazyMatch (capCls isNumDot))

/-- `\bK/?G\b.*?([\d.]+)` at one position: `K`, an optional `/`, `G`, a
word boundary (greedy `/?` — if a `/` is present and `G` does not follow
it, the no-`/` alternative fails too, `/` not being `G`). -/
def matchKG (prev : Option Char) (s : List Char) : Option (List Char) :=
  match s with
  | k :: '/' :: g :: rest =>
    if boundaryBefore prev k && upCh k == 'K' && upCh g == 'G' &&
        boundaryAfterWord rest then
      lazyMatch (capCls isNumDot) rest
    else none
  | k :: g :: rest =>
    if boundaryBefore prev k && upCh k == 'K' && upCh g == 'G' &&
        boundaryAfterWord rest then
      lazyMatch (capCls isNumDot) rest
    else none
  | _ => none

/-- `float(m.group(1))` of `find_number` on a `[\d.]+` group: a mapping
whose `.error` is the `ValueError` the conversion raises when the group is
not a number (e.g. `"."`); `.ok none` means the pattern did not match. -/
def exceptOfGroup (o : Option (List Char)) : Except Unit (Option ℚ) :=
  match o with
  | none => .ok none
  | some g =>
    match floatOfDigitsDot g with
    | some q => .ok (some q)
    | none => .error ()

/-- Line 103: `find_number(r"(\d+)\s*GAMES?", s) or find_number(r"\bGames?\b.*?(\d+)", s)`.
Python's `or` falls through both when the first pattern misses and when
its value is the falsy `0.0`. -/
def gamesAlt (s : List Char) : Option ℚ :=
  (searchB matchGamesB none s).map fun g => (natOfDigits g : ℚ)

def gamesDirect (s : List Char) : Option ℚ :=
  match searchB matchGamesA none s with
  | some g => if (natOfDigits g : ℚ) = 0 then gamesAlt s else some (natOfDigits g : ℚ)
  | none => gamesAlt s

/-- Line 105: `find_number(r"\bKILLS?\b.*?(\d+)", s)`. -/
def killsRes (s : List Char) : Option ℚ :=
  (searchB matchKills none s).map fun g => (natOfDigits g : ℚ)

/-- Line 107: `find_number(r"\bWIN\s*%?\b.*?([\d.]+)", s)` — can raise. -/
def winRes (s : List Char) : Except Unit (Option ℚ) :=
  exceptOfGroup (searchB matchWin none s)

/-- Lines 109-110: the `AVG SURVIVED` time group fed to
`parse_time_to_seconds`. -/
def timeRes (s : List Char) : Option ℤ :=
  match searchB matchTimeLbl none s with
  | some g => parse_time_to_seconds g
  | none => none

/-- Line 112: `find_number(r"\bAVG\s*DAMAGE\b.*?([\d.]+)", s)` — can raise. -/
def dmgRes (s : List Char) : Except Unit (Option ℚ) :=
  exceptOfGroup (searchB matchDamage none s)

/-- Line 117: `find_number(r"\bK/?G\b.*?([\d.]+)", s)` — can raise. -/
def kgRes (s : List Char) : Except Unit (Option ℚ) :=
  exceptOfGroup (searchB matchKG none s)

/-- Lines 103 and 114-119: the resolved games value — the direct patterns,
else the `kills / kg` fallback, guarded by `kills is not None and kg`
(`kg` truthy, i.e. found and nonzero; the `kg` search itself runs whenever
the direct patterns missed, so its `ValueError` propagates from there). -/
def gamesFull (s : List Char) : Except Unit (Option ℚ) :=
  match gamesDirect s with
  | some g => .ok (some g)
  | none =>
    match kgRes s with
    | .error _ => .error ()
    | .ok none => .ok none
    | .ok (some r) =>
      if r = 0 then .ok none
      else
        match killsRes s with
        | some k => .ok (some (k / r))
        | none => .ok none

/-- `parse_stats_in_text`, lines 101-131: resolve the five fields (games
with its fallback), return `none` unless all five resolved, else build the
`ModeStats` with `int(round(·))` on games and kills.  `.error` is a
`ValueError` escaping from `float()` on a malformed decimal group. -/
def parse_stats_in_text (s : List Char) : Except Unit (Option ModeStats) :=
  match winRes s with
  | .error _ => .error ()
  | .ok w? =>
    match dmgRes s with
    | .error _ => .error ()
    | .ok d? =>
      match gamesFull s with
      | .error _ => .error ()
      | .ok g? =>
        match g?, killsRes s, w?, timeRes s, d? with
        | some g, some k, some w, some t, some d =>
          .ok (some ⟨pyRound g, pyRound k, w, t, d⟩)
        | _, _, _, _, _ => .ok none

def nameSOLO : String := "SOLO"
def nameDUO : String := "DUO"
def nameSQUAD : String := "SQUAD"
def lblSOLO : List Char := [ 'S', 'O', 'L', 'O' ]
def lblDUO : List Char := [ 'D', 'U', 'O' ]
def lblSQUAD : List Char := [ 'S', 'Q', 'U', 'A', 'D' ]
def chO : Char := 'O'
def chD : Char := 'D'

/-- One alternative of `(?i)\b(SOLO|DUO|SQUAD)\b`: boundary, the token,
boundary after; returns the canonical (uppercased, as `mode.upper()`
stores it) name, the token's last character (a word character, for the
boundary of the continued scan) and the remainder. -/
def tryTok (lbl : List Char) (nm : String) (lc : Char) (prev : Option Char)
    (s : List Char) : Option (String × Char × List Char) :=
  match s with
  | [] => none
  | c :: _ =>
    if boundaryBefore prev c then
      match ciMatch lbl s with
      | some rest => if boundaryAfterWord rest then some (nm, lc, rest) else none
      | none => none
    else none

def tryModeToken (prev : Option Char) (s : List Char) :
    Option (String × Char × List Char) :=
  match tryTok lblSOLO nameSOLO chO prev s with
  | some r => some r
  | none =>
    match tryTok lblDUO nameDUO chO prev s with
    | some r => some r
    | none => tryTok lblSQUAD nameSQUAD chD prev s

/-- `re.split(r"(?i)\b(SOLO|DUO|SQUAD)\b", text)` with the captured tokens
kept: the preamble and the (mode, following-text) pairs.  Fuelled scan
(one unit per character position; `text.length + 1` always suffices). -/
def splitModes (fuel : ℕ) (prev : Option Char) (acc : List Char)
    (s : List Char) : List Char × List (String × List Char) :=
  match fuel with
  | 0 => (acc.reverse, [])
  | fuel + 1 =>
    match s with
    | [] => (acc.reverse, [])
    | c :: rest =>
      match tryModeToken prev (c :: rest) with
      | some (name, lastc, rest') =>
        let pr := splitModes fuel (some lastc) [] rest'
        (acc.reverse, (name, pr.1) :: pr.2)
      | none => splitModes fuel (some c) (c :: acc) rest

/-- The run-collapsing `re.sub(r"[^\S\r\n]+", " ", raw)` of line 77:
every maximal run of horizontal whitespace becomes one space. -/
def collapseWs : List Char → List Char
  | [] => []
  | [c] => if isHSpace c then [ ' ' ] else [c]
  | c :: d :: rest =>
    if isHSpace c then
      (if isHSpace d then collapseWs (d :: rest) else ' ' :: collapseWs (d :: rest))
    else c :: collapseWs (d :: rest)

/-- Python dict assignment `modes[mode] = parsed`: replace the value when
the key is present, append otherwise. -/
def dictInsert (k : String) (v : ModeStats) (l : List (String × ModeStats)) :
    List (String × ModeStats) :=
  if l.any (fun p => p.1 == k) then l.map fun p => if p.1 == k then (k, v) else p
  else l ++ [(k, v)]

/-- The loop of lines 85-88: parse each mode's block, keep it only when
something parsed, a later block for the same mode replacing the earlier
entry; a `ValueError` from any block propagates. -/
def buildModes : List (String × List Char) → List (String × ModeStats) →
    Except Unit (List (String × ModeStats))
  | [], acc => .ok acc
  | (m, b) :: rest, acc =>
    match parse_stats_in_text b with
    | .error _ => .error ()
    | .ok none => buildModes rest acc
    | .ok (some ms) => buildModes rest (dictInsert m ms acc)

/-- `parse_block`, lines 71-93: collapse horizontal whitespace, split on
mode headers; with no header the whole text is an implicit SOLO block. -/
def parse_block (raw : List Char) : Except Unit (List (String × ModeStats)) :=
  let text := collapseWs raw
  let pr := splitModes (text.length + 1) none [] text
  match pr.2 with
  | [] =>
    match parse_stats_in_text text with
    | .error _ => .error ()
    | .ok none => .ok []
    | .ok (some m) => .ok [(nameSOLO, m)]
  | _ :: _ => buildModes pr.2 []

/-! ## The variant parser of `src/unnamed/part_000`

Same scoring code; stricter label/value adjacency through the separator
`(?:\s*[:\-]?\s*|\s*\n\s*)` (the second alternative is subsumed by the
first, whose `\s*` also matches newlines), comma-tolerant decimal classes
`[\d.,]+`, and a `_num` helper substituting `,` by `.` before `float`. -/

/-- `_num` of lines 61-68: strip, substitute `,` by `.`, then `float`,
with a failed parse giving `None`. -/
def p0_num (x : List Char) : Option ℚ :=
  floatOfDigitsDot ((pyStrip x).map fun c => if c.toNat == 44 then Char.ofNat 46 else c)

/-- The separator followed by a capture `(cls+)`: whitespace, an optional
colon or dash with more whitespace after it, then the class run.  The
class never holds whitespace, colon or dash, so the backtracking of the
separator's pieces reaches exactly these two end positions. -/
def sepCapture (cls : Char → Bool) (t : List Char) : Option (List Char) :=
  let t1 := t.dropWhile isSpaceB
  match t1 with
  | c :: rest =>
    if c == chColon || c.toNat == 45 then capCls cls (rest.dropWhile isSpaceB)
    else capCls cls t1
  | [] => none

/-- The separator followed by the time group `(\d{1,2}:\d{2})`. -/
def sepTime (t : List Char) : Option (List Char) :=
  let t1 := t.dropWhile isSpaceB
  match t1 with
  | c :: rest =>
    if c == chColon || c.toNat == 45 then tryTimeToken (rest.dropWhile isSpaceB)
    else tryTimeToken t1
  | [] => none

/-- `\bGAMES?\b(?:sep)(\d+)` at one position. -/
def p0MatchGamesB (prev : Option Char) (s : List Char) : Option (List Char) :=
  (matchWordS lblGAME prev s).bind (sepCapture isDigitCh)

/-- `\bKILLS?\b(?:sep)(\d+)` at one position. -/
def p0MatchKills (prev : Option Char) (s : List Char) : Option (List Char) :=
  (matchWordS lblKILL prev s).bind (sepCapture isDigitCh)

/-- The tail `\s*%?(?:sep)([\d.,]+)` after `WIN` (no boundary after the
optional `%` in this variant): skip whitespace; with a `%` present only
the `%`-alternative can reach the capture, the separator being unable to
consume the `%`. -/
def p0WinAfter (t : List Char) : Option (List Char) :=
  let u := t.dropWhile isSpaceB
  match u with
  | c :: rest => if c.toNat == 37 then sepCapture isNumDotComma rest
                 else sepCapture isNumDotComma u
  | [] => none

/-- `\bWIN\s*%?(?:sep)([\d.,]+)` at one position. -/
def p0MatchWin (prev : Option Char) (s : List Char) : Option (List Char) :=
  match s with
  | [] => none
  | c :: _ =>
    if boundaryBefore prev c then (ciMatch lblWIN s).bind p0WinAfter
    else none

/-- `\bAVG\s*SURVIVED\b(?:sep)(\d{1,2}:\d{2})` at one position. -/
def p0MatchTime (prev : Option Char) (s : List Char) : Option (List Char) :=
  (matchAvgLbl lblSURVIVED prev s).bind sepTime

/-- `\bAVG\s*DAMAGE\b(?:sep)([\d.,]+)` at one position. -/
def p0MatchDmg (prev : Option Char) (s : List Char) : Option (List Char) :=
  (matchAvgLbl lblDAMAGE prev s).bind (sepCapture isNumDotComma)

/-- `\bK/?G\b(?:sep)([\d.,]+)` at one position. -/
def p0MatchKG (prev : Option Char) (s : List Char) : Option (List Char) :=
  match s with
  | k :: '/' :: g :: rest =>
    if boundaryBefore prev k && upCh k == 'K' && upCh g == 'G' &&
        boundaryAfterWord rest then
      sepCapture isNumDotComma rest
    else none
  | k :: g :: rest =>
    if boundaryBefore prev k && upCh k == 'K' && upCh g == 'G' &&
        boundaryAfterWord rest then
      sepCapture isNumDotComma rest
    else none
  | _ => none

/-- `_take` for the games field, lines 79-82: first pattern with a match
anywhere wins (no truthiness filter in this variant). -/
def p0Games (s : List Char) : Option (List Char) :=
  match searchB matchGamesA none s with
  | some g => some g
  | none => searchB p0MatchGamesB none s

def p0Kills (s : List Char) : Option (List Char) :=
  searchB p0MatchKills none s

def p0Win (s : List Char) : Option (List Char) :=
  searchB p0MatchWin none s

def p0TimeG (s : List Char) : Option (List Char) :=
  searchB p0MatchTime none s

def p0Dmg (s : List Char) : Option (List Char) :=
  searchB p0MatchDmg none s

def p0KG (s : List Char) : Option (List Char) :=
  searchB p0MatchKG none s

/-- `parse_stats_in_text` of `src/unnamed/part_000`, lines 77-115: the
fallback `float(kills)/float(kg.replace(",", "."))` sits in a
`try/except` (a bad ratio or a zero division leaves games `None`), but
the conversions `float(_num(win_pct))` and `float(_num(avg_damage))` of
lines 112-114 raise a `TypeError` when `_num` returns `None`. -/
def p0_parse_stats_in_text (s : List Char) : Except Unit (Option ModeStats) :=
  let games : Option ℚ :=
    match p0Games s with
    | some g => some (natOfDigits g : ℚ)
    | none =>
      match p0Kills s, p0KG s with
      | some k, some kg =>
        match floatOfDigitsDot (kg.map fun c =>
            if c.toNat == 44 then Char.ofNat 46 else c) with
        | some r => if r = 0 then none else some ((natOfDigits k : ℚ) / r)
        | none => none
      | _, _ => none
  let avgS : Option ℤ :=
    match p0TimeG s with
    | some g => parse_time_to_seconds g
    | none => none
  match games, p0Kills s, p0Win s, avgS, p0Dmg s with
  | some g, some k, some w, some t, some d =>
    match p0_num w, p0_num d with
    | some wq, some dq => .ok (some ⟨pyRound g, pyRound (natOfDigits k : ℚ), wq, t, dq⟩)
    | _, _ => .error ()
  | _, _, _, _, _ => .ok none

/-! ## Concrete inputs used by the claims -/

def msC1 : ModeStats := ⟨50, 0, 0, 0, 0⟩

def msC4solo : ModeStats := ⟨100, 450, 0, 0, 0⟩

def msC4duo : ModeStats := ⟨0, 7, 5, 60, 80⟩

/-! ## Score-calculator claims -/

/-- C1: for every `ModeStats` with `games > 0` whose raw score differs
from the neutral baseline 300, the adjusted score equals
`300 + (games/(games+50)) * (spi - 300)` and lies strictly between 300
and the raw score — the shrinkage never overshoots either endpoint. -/
theorem spec_C1_adjusted_between (ms : ModeStats) (h1 : 0 < ms.games)
    (h2 : ms.spi ≠ 300) :
    (min 300 ms.spi < ms.adj_spi ∧ ms.adj_spi < max 300 ms.spi) ∧
      ms.adj_spi = 300 + ((ms.games : ℚ) / ((ms.games : ℚ) + 50)) * (ms.spi - 300) := by
  have hg : (0 : ℚ) < (ms.games : ℚ) := by exact_mod_cast h1
  have hden : (0 : ℚ) < (ms.games : ℚ) + 50 := by linarith
  have hform : ms.adj_spi =
      300 + ((ms.games : ℚ) / ((ms.games : ℚ) + 50)) * (ms.spi - 300) := by
    simp [ModeStats.adj_spi, NEUTRAL_BASELINE, CONFIDENCE_CONST, h1]
  have hw0 : 0 < (ms.games : ℚ) / ((ms.games : ℚ) + 50) := div_pos hg hden
  have hw1 : (ms.games : ℚ) / ((ms.games : ℚ) + 50) < 1 :=
    (div_lt_one hden).mpr (by linarith)
  refine ⟨?_, hform⟩
  rcases lt_or_gt_of_ne h2 with hlt | hgt
  · rw [min_eq_right hlt.le, max_eq_left hlt.le, hform]
    constructor
    · nlinarith [mul_pos (sub_pos.mpr hw1) (sub_pos.mpr hlt)]
    · nlinarith [mul_pos hw0 (sub_pos.mpr hlt)]
  · rw [min_eq_left hgt.le, max_eq_right hgt.le, hform]
    constructor
    · nlinarith [mul_pos hw0 (sub_pos.mpr hgt)]
    · nlinarith [mul_pos (sub_pos.mpr hw1) (sub_pos.mpr hgt)]

theorem spec_C1_witness :
    (min 300 msC1.spi < msC1.adj_spi ∧ msC1.adj_spi < max 300 msC1.spi) ∧
      msC1.adj_spi = 300 + ((msC1.games : ℚ) / ((msC1.games : ℚ) + 50)) * (msC1.spi - 300) :=
  spec_C1_adjusted_between msC1 (by decide)
    (by norm_num [msC1, ModeStats.spi, ModeStats.spi_components, SURVIVAL_CAP_SEC, min_def])

/-- C2: for every `ModeStats` with `avg_survived_sec ≥ 0` the survival
component equals `(min(avg_survived_sec,180)/180) * 50`, lies in `[0,50]`,
takes the value 50 at both 500 and 180 seconds, while base, damage and
winBonus are unbounded above (no upper clamp). -/
theorem spec_C2_survival_cap (ms : ModeStats) (h : 0 ≤ ms.avg_survived_sec) :
    ms.spi_components.survival = ((min ms.avg_survived_sec 180 : ℤ) : ℚ) / 180 * 50 ∧
    0 ≤ ms.spi_components.survival ∧ ms.spi_components.survival ≤ 50 ∧
    (ModeStats.spi_components ⟨ms.games, ms.kills, ms.win_pct, 500, ms.avg_damage⟩).survival = 50 ∧
    (ModeStats.spi_components ⟨ms.games, ms.kills, ms.win_pct, 180, ms.avg_damage⟩).survival = 50 ∧
    ∀ B : ℚ, ∃ ms2 : ModeStats,
      B < ms2.spi_components.base ∧ B < ms2.spi_components.damage ∧
        B < ms2.spi_components.winBonus := by
  have hq0 : (0 : ℚ) ≤ ((min ms.avg_survived_sec 180 : ℤ) : ℚ) := by
    exact_mod_cast le_min h (by norm_num)
  have hq1 : ((min ms.avg_survived_sec 180 : ℤ) : ℚ) ≤ 180 := by
    exact_mod_cast min_le_right ms.avg_survived_sec (180 : ℤ)
  have hsurv : ms.spi_components.survival =
      ((min ms.avg_survived_sec 180 : ℤ) : ℚ) / 180 * 50 := by
    norm_num [ModeStats.spi_components, SURVIVAL_CAP_SEC]
  have h500 : (min (500 : ℤ) 180) = 180 := by decide
  have h180 : (min (180 : ℤ) 180) = 180 := by decide
  refine ⟨hsurv, ?_, ?_, ?_, ?_, ?_⟩
  · rw [hsurv]; positivity
  · rw [hsurv, div_mul_eq_mul_div, div_le_iff₀ (by norm_num : (0:ℚ) < 180)]
    linarith
  · norm_num [ModeStats.spi_components, SURVIVAL_CAP_SEC, h500]
  · norm_num [ModeStats.spi_components, SURVIVAL_CAP_SEC, h180]
  · intro B
    refine ⟨⟨1, max 1 (⌊B⌋ + 1), max 0 B + 1, 0, 500 * (max 0 B + 1)⟩, ?_, ?_, ?_⟩
    · have hk1 : (1 : ℚ) ≤ ((max 1 (⌊B⌋ + 1) : ℤ) : ℚ) := by
        exact_mod_cast le_max_left (1 : ℤ) (⌊B⌋ + 1)
      have hkB : B < ((max 1 (⌊B⌋ + 1) : ℤ) : ℚ) := by
        have ha : B < (⌊B⌋ : ℚ) + 1 := Int.lt_floor_add_one B
        have hb : ((⌊B⌋ : ℚ) + 1) ≤ ((max 1 (⌊B⌋ + 1) : ℤ) : ℚ) := by
          exact_mod_cast le_max_right (1 : ℤ) (⌊B⌋ + 1)
        linarith
      have hbase : (ModeStats.spi_components
          ⟨1, max 1 (⌊B⌋ + 1), max 0 B + 1, 0, 500 * (max 0 B + 1)⟩).base =
          ((max 1 (⌊B⌋ + 1) : ℤ) : ℚ) / ((1 : ℤ) : ℚ) * 100 := by
        simp [ModeStats.spi_components]
      rw [hbase]
      rw [show (((1 : ℤ)) : ℚ) = 1 by norm_num, div_one]
      linarith
    · have hB : B ≤ max 0 B := le_max_right 0 B
      have h0 : (0 : ℚ) ≤ max 0 B := le_max_left 0 B
      have hd : (ModeStats.spi_components
          ⟨1, max 1 (⌊B⌋ + 1), max 0 B + 1, 0, 500 * (max 0 B + 1)⟩).damage =
          500 * (max 0 B + 1) / 500 * 40 := by
        simp [ModeStats.spi_components]
      rw [hd]
      have he : (500 : ℚ) * (max 0 B + 1) / 500 * 40 = (max 0 B + 1) * 40 := by
        field_simp
      rw [he]
      linarith
    · have hB : B ≤ max 0 B := le_max_right 0 B
      have h0 : (0 : ℚ) ≤ max 0 B := le_max_left 0 B
      have hw : (ModeStats.spi_components
          ⟨1, max 1 (⌊B⌋ + 1), max 0 B + 1, 0, 500 * (max 0 B + 1)⟩).winBonus =
          (max 0 B + 1) * 2 := by
        simp [ModeStats.spi_components]
      rw [hw]
      linarith

theorem spec_C2_witness :
    (⟨1, 2, 3, 4, 5⟩ : ModeStats).spi_components.survival =
      ((min (⟨1, 2, 3, 4, 5⟩ : ModeStats).avg_survived_sec 180 : ℤ) : ℚ) / 180 * 50 ∧
    0 ≤ (⟨1, 2, 3, 4, 5⟩ : ModeStats).spi_components.survival ∧
    (⟨1, 2, 3, 4, 5⟩ : ModeStats).spi_components.survival ≤ 50 ∧
    (ModeStats.spi_components ⟨1, 2, 3, 500, 5⟩).survival = 50 ∧
    (ModeStats.spi_components ⟨1, 2, 3, 180, 5⟩).survival = 50 ∧
    ∀ B : ℚ, ∃ ms2 : ModeStats,
      B < ms2.spi_components.base ∧ B < ms2.spi_components.damage ∧
        B < ms2.spi_components.winBonus :=
  spec_C2_survival_cap ⟨1, 2, 3, 4, 5⟩ (by decide)

/-- C3: `tier_from_score` picks the first threshold (descending) with
`score ≥ threshold`: 750 is Grandmaster, 749.999 is Master, and every
score below 250 — arbitrarily negative included — is Bronze. -/
theorem spec_C3_tier_thresholds (x : ℚ) (h : x < 250) :
    tier_from_score 750 = "Grandmaster" ∧
    tier_from_score (749999 / 1000) = "Master" ∧
    tier_from_score x = "Bronze" := by
  refine ⟨by norm_num [tier_from_score, TIERS, tierGo],
    by norm_num [tier_from_score, TIERS, tierGo], ?_⟩
  simp only [tier_from_score, TIERS, tierGo]
  rw [if_neg (by linarith), if_neg (by linarith), if_neg (by linarith),
    if_neg (by linarith), if_neg (by linarith), if_neg (by linarith)]
  rcases le_or_lt (-(10 ^ 9) : ℚ) x with hx | hx
  · rw [if_pos hx]
  · rw [if_neg (not_le.mpr hx)]

theorem spec_C3_witness :
    tier_from_score 750 = "Grandmaster" ∧
    tier_from_score (749999 / 1000) = "Master" ∧
    tier_from_score (-5) = "Bronze" :=
  spec_C3_tier_thresholds (-5) (by norm_num)

/-- C4: `overall_adj_spi` is `0` when the games total is zero, and the
games-weighted mean of the adjusted scores otherwise; a zero-games mode
contributes nothing, and on `{SOLO: games=100, adjSPI=400}` plus a
zero-games DUO entry the result is exactly 400, equal to the result
without the zero-games mode. -/
theorem spec_C4_overall (modes l1 l2 : List (String × ModeStats)) (k : String)
    (m0 : ModeStats) (h0 : m0.games = 0) :
    ((modes.map fun p => p.2.games).sum = 0 → overall_adj_spi modes = 0) ∧
    ((modes.map fun p => p.2.games).sum ≠ 0 →
      overall_adj_spi modes =
        (modes.map fun p => p.2.adj_spi * (p.2.games : ℚ)).sum /
          (((modes.map fun p => p.2.games).sum : ℤ) : ℚ)) ∧
    overall_adj_spi (l1 ++ (k, m0) :: l2) = overall_adj_spi (l1 ++ l2) ∧
    overall_adj_spi [(nameSOLO, msC4solo), (nameDUO, msC4duo)] = 400 ∧
    overall_adj_spi [(nameSOLO, msC4solo)] = 400 := by
  refine ⟨fun h => by simp [overall_adj_spi, h], fun h => by simp [overall_adj_spi, h],
    ?_,
    by norm_num [overall_adj_spi, msC4solo, msC4duo, ModeStats.adj_spi, ModeStats.spi,
      ModeStats.spi_components, NEUTRAL_BASELINE, CONFIDENCE_CONST, SURVIVAL_CAP_SEC,
      min_def],
    by norm_num [overall_adj_spi, msC4solo, ModeStats.adj_spi, ModeStats.spi,
      ModeStats.spi_components, NEUTRAL_BASELINE, CONFIDENCE_CONST, SURVIVAL_CAP_SEC,
      min_def]⟩
  simp [overall_adj_spi, h0]

theorem spec_C4_witness :
    ((([(nameSOLO, msC4solo)]).map fun p => p.2.games).sum = 0 →
      overall_adj_spi [(nameSOLO, msC4solo)] = 0) ∧
    ((([(nameSOLO, msC4solo)]).map fun p => p.2.games).sum ≠ 0 →
      overall_adj_spi [(nameSOLO, msC4solo)] =
        (([(nameSOLO, msC4solo)]).map fun p => p.2.adj_spi * (p.2.games : ℚ)).sum /
          (((([(nameSOLO, msC4solo)]).map fun p => p.2.games).sum : ℤ) : ℚ)) ∧
    overall_adj_spi ([(nameSOLO, msC4solo)] ++ (nameDUO, msC4duo) :: []) =
      overall_adj_spi ([(nameSOLO, msC4solo)] ++ []) ∧
    overall_adj_spi [(nameSOLO, msC4solo), (nameDUO, msC4duo)] = 400 ∧
    overall_adj_spi [(nameSOLO, msC4solo)] = 400 :=
  spec_C4_overall [(nameSOLO, msC4solo)] [(nameSOLO, msC4solo)] [] nameDUO msC4duo rfl

/-! ## Time-parsing claims (C9) -/

theorem digitChar_isDigit (d : ℕ) (h : d < 10) : isDigitCh (digitChar d) = true := by
  interval_cases d <;> decide

theorem digitChar_notSpace (d : ℕ) (h : d < 10) : isSpaceB (digitChar d) = false := by
  interval_cases d <;> decide

theorem digitChar_toDigit (d : ℕ) (h : d < 10) : toDigit (digitChar d) = d := by
  interval_cases d <;> decide

theorem pyStrip_four (a x b c : Char) (ha : isSpaceB a = false)
    (hc : isSpaceB c = false) : pyStrip [a, x, b, c] = [a, x, b, c] := by
  simp [pyStrip, List.dropWhile, ha, hc]

theorem pyStrip_five (a a2 x b c : Char) (ha : isSpaceB a = false)
    (hc : isSpaceB c = false) : pyStrip [a, a2, x, b, c] = [a, a2, x, b, c] := by
  simp [pyStrip, List.dropWhile, ha, hc]

theorem parse_fmtTime (n : ℕ) (hn : n < 6000) :
    parse_time_to_seconds (fmtTime n) = some (n : ℤ) := by
  have hsd : n % 60 / 10 < 10 := by omega
  have hsu : n % 60 % 10 < 10 := by omega
  by_cases h10 : n / 60 < 10
  · have hfmt : fmtTime n =
        [digitChar (n / 60), chColon, digitChar (n % 60 / 10), digitChar (n % 60 % 10)] := by
      simp [fmtTime, h10]
    rw [hfmt]
    unfold parse_time_to_seconds
    rw [pyStrip_four _ _ _ _ (digitChar_notSpace _ h10) (digitChar_notSpace _ hsu)]
    simp only [digitChar_isDigit _ h10, digitChar_isDigit _ hsd, digitChar_isDigit _ hsu,
      beq_self_eq_true, Bool.and_self, Bool.true_and, Bool.and_true, if_true]
    rw [digitChar_toDigit _ h10, digitChar_toDigit _ hsd, digitChar_toDigit _ hsu]
    congr 1
    push_cast
    omega
  · have hm : n / 60 < 100 := by omega
    have hd1 : n / 60 / 10 < 10 := by omega
    have hd2 : n / 60 % 10 < 10 := by omega
    have hfmt : fmtTime n =
        [digitChar (n / 60 / 10), digitChar (n / 60 % 10), chColon,
          digitChar (n % 60 / 10), digitChar (n % 60 % 10)] := by
      simp [fmtTime, h10]
    rw [hfmt]
    unfold parse_time_to_seconds
    rw [pyStrip_five _ _ _ _ _ (digitChar_notSpace _ hd1) (digitChar_notSpace _ hsu)]
    simp only [digitChar_isDigit _ hd1, digitChar_isDigit _ hd2, digitChar_isDigit _ hsd,
      digitChar_isDigit _ hsu, beq_self_eq_true, Bool.and_self, Bool.true_and,
      Bool.and_true, if_true]
    rw [digitChar_toDigit _ hd1, digitChar_toDigit _ hd2, digitChar_toDigit _ hsd,
      digitChar_toDigit _ hsu]
    congr 1
    push_cast
    omega

theorem parse_time_none_of_not_shape (l : List Char)
    (h : isTimeShape (pyStrip l) = false) : parse_time_to_seconds l = none := by
  unfold parse_time_to_seconds
  split
  · next a x b c heq =>
    rw [heq] at h
    simp only [isTimeShape] at h
    simp [h]
  · next a a2 x b c heq =>
    rw [heq] at h
    simp only [isTimeShape] at h
    simp [h]
  · rfl

/-- C9 (counterexample): the claim's rejection clause fails as stated —
`" 3:18"` is not of the exact `M:SS`/`MM:SS` shape, yet
`parse_time_to_seconds` strips surrounding whitespace first and accepts
it, returning 198. -/
theorem spec_C9_strip_cex :
    isTimeShape (( " 3:18" ).toList) = false ∧
    parse_time_to_seconds (( " 3:18" ).toList) = some 198 := by
  constructor
  · decide
  · decide

/-- C9 (amended): `parse_time_to_seconds "3:18" = 198`; formatting any
seconds value in `[0, 5999]` as `m:ss` (zero-padded two-digit seconds)
and reparsing recovers it exactly; and every string that is not of the
exact one-or-two-digit-minutes, two-digit-seconds shape *after stripping
surrounding whitespace* is rejected. -/
theorem spec_C9_roundtrip :
    parse_time_to_seconds (( "3:18" ).toList) = some 198 ∧
    (∀ n : ℕ, n < 6000 → parse_time_to_seconds (fmtTime n) = some (n : ℤ)) ∧
    ∀ l : List Char, isTimeShape (pyStrip l) = false → parse_time_to_seconds l = none :=
  ⟨by decide, parse_fmtTime, parse_time_none_of_not_shape⟩

instance {ε α : Type} [DecidableEq ε] [DecidableEq α] : DecidableEq (Except ε α) :=
  fun a b =>
    match a, b with
    | .error e, .error f =>
      if h : e = f then isTrue (by rw [h]) else isFalse (by intro hh; cases hh; exact h rfl)
    | .ok x, .ok y =>
      if h : x = y then isTrue (by rw [h]) else isFalse (by intro hh; cases hh; exact h rfl)
    | .error _, .ok _ => isFalse (by intro hh; cases hh)
    | .ok _, .error _ => isFalse (by intro hh; cases hh)

theorem parse_stats_ok_some_iff (s : List Char) (ms : ModeStats) :
    parse_stats_in_text s = .ok (some ms) ↔
      ∃ g k w t d, gamesFull s = .ok (some g) ∧ killsRes s = some k ∧
        winRes s = .ok (some w) ∧ timeRes s = some t ∧ dmgRes s = .ok (some d) ∧
        ms = ⟨pyRound g, pyRound k, w, t, d⟩ := by
  unfold parse_stats_in_text
  cases hw : winRes s with
  | error e => simp
  | ok w? =>
    cases hd : dmgRes s with
    | error e => simp
    | ok d? =>
      cases hg : gamesFull s with
      | error e => simp
      | ok g? =>
        cases g? <;> cases hk : killsRes s <;> cases w? <;> cases ht : timeRes s <;>
          cases d? <;> simp [eq_comm]

theorem ratOfDigitsDot_nonneg (l : List Char) : 0 ≤ ratOfDigitsDot l := by
  simp only [ratOfDigitsDot]
  split <;> positivity

theorem floatOfDigitsDot_nonneg (l : List Char) (q : ℚ)
    (h : floatOfDigitsDot l = some q) : 0 ≤ q := by
  unfold floatOfDigitsDot at h
  split at h
  · injection h with h'
    exact h' ▸ ratOfDigitsDot_nonneg l
  · exact absurd h (by simp)

theorem exceptOfGroup_nonneg (o : Option (List Char)) (q : ℚ)
    (h : exceptOfGroup o = .ok (some q)) : 0 ≤ q := by
  unfold exceptOfGroup at h
  split at h
  · simp at h
  · split at h
    · rename_i q' heq
      have hq : q' = q := by
        injection h with h'
        injection h'
      exact hq ▸ floatOfDigitsDot_nonneg _ q' heq
    · simp at h

theorem killsRes_nonneg (s : List Char) (k : ℚ) (h : killsRes s = some k) :
    0 ≤ k := by
  unfold killsRes at h
  cases hs : searchB matchKills none s with
  | none => rw [hs] at h; simp at h
  | some g =>
    rw [hs] at h
    have : ((natOfDigits g : ℕ) : ℚ) = k := by injection h
    exact this ▸ Nat.cast_nonneg _

theorem gamesAlt_nonneg (s : List Char) (g : ℚ) (h : gamesAlt s = some g) :
    0 ≤ g := by
  unfold gamesAlt at h
  cases hs : searchB matchGamesB none s with
  | none => rw [hs] at h; simp at h
  | some grp =>
    rw [hs] at h
    have : ((natOfDigits grp : ℕ) : ℚ) = g := by injection h
    exact this ▸ Nat.cast_nonneg _

theorem gamesDirect_nonneg (s : List Char) (g : ℚ) (h : gamesDirect s = some g) :
    0 ≤ g := by
  unfold gamesDirect at h
  split at h
  · split at h
    · exact gamesAlt_nonneg s g h
    · rename_i grp hgrp hne
      have : ((natOfDigits grp : ℕ) : ℚ) = g := by injection h
      exact this ▸ Nat.cast_nonneg _
  · exact gamesAlt_nonneg s g h

theorem gamesFull_nonneg (s : List Char) (g : ℚ)
    (h : gamesFull s = .ok (some g)) : 0 ≤ g := by
  unfold gamesFull at h
  split at h
  · rename_i g' hg'
    have : g' = g := by
      injection h with h'
      injection h'
    exact this ▸ gamesDirect_nonneg s g' hg'
  · rename_i hdir
    split at h
    · simp at h
    · simp at h
    · rename_i r hkg
      split at h
      · simp at h
      · rename_i hr0
        split at h
        · rename_i k hks
          have hkr : k / r = g := by
            injection h with h'
            injection h'
          have hr : 0 ≤ r := exceptOfGroup_nonneg _ r hkg
          exact hkr ▸ div_nonneg (killsRes_nonneg s k hks) hr
        · simp at h

theorem parse_time_nonneg (l : List Char) (t : ℤ)
    (h : parse_time_to_seconds l = some t) : 0 ≤ t := by
  unfold parse_time_to_seconds at h
  split at h
  · split at h
    · injection h with h'
      subst h'
      positivity
    · exact absurd h (by simp)
  · split at h
    · injection h with h'
      subst h'
      positivity
    · exact absurd h (by simp)
  · exact absurd h (by simp)

theorem timeRes_nonneg (s : List Char) (t : ℤ) (h : timeRes s = some t) :
    0 ≤ t := by
  unfold timeRes at h
  split at h
  · rename_i g hg
    exact parse_time_nonneg g t h
  · simp at h

theorem pyRound_nonneg (q : ℚ) (h : 0 ≤ q) : 0 ≤ pyRound q := by
  have hf : 0 ≤ ⌊q⌋ := Int.floor_nonneg.mpr h
  simp only [pyRound]
  split
  · exact hf
  · split
    · omega
    · split
      · exact hf
      · omega

theorem parse_stats_nonneg (s : List Char) (ms : ModeStats)
    (h : parse_stats_in_text s = .ok (some ms)) :
    0 ≤ ms.games ∧ 0 ≤ ms.kills ∧ 0 ≤ ms.win_pct ∧
      0 ≤ ms.avg_survived_sec ∧ 0 ≤ ms.avg_damage := by
  rcases (parse_stats_ok_some_iff s ms).mp h with ⟨g, k, w, t, d, hg, hk, hw, ht, hd, hms⟩
  subst hms
  exact ⟨pyRound_nonneg g (gamesFull_nonneg s g hg),
    pyRound_nonneg k (killsRes_nonneg s k hk),
    exceptOfGroup_nonneg _ w hw,
    timeRes_nonneg s t ht,
    exceptOfGroup_nonneg _ d hd⟩

/-! ## Keys and entries of `parse_block` -/

theorem tryTok_name (lbl : List Char) (nm : String) (lc : Char)
    (prev : Option Char) (s : List Char) (out : String × Char × List Char)
    (h : tryTok lbl nm lc prev s = some out) : out.1 = nm := by
  unfold tryTok at h
  split at h
  · simp at h
  · split at h
    · split at h
      · split at h
        · injection h with h'
          rw [← h']
        · simp at h
      · simp at h
    · simp at h

theorem tryModeToken_name (prev : Option Char) (s : List Char)
    (out : String × Char × List Char) (h : tryModeToken prev s = some out) :
    out.1 = nameSOLO ∨ out.1 = nameDUO ∨ out.1 = nameSQUAD := by
  unfold tryModeToken at h
  split at h
  · rename_i r hr
    injection h with h'
    exact Or.inl (h' ▸ tryTok_name _ _ _ _ _ r hr)
  · split at h
    · rename_i r hr
      injection h with h'
      exact Or.inr (Or.inl (h' ▸ tryTok_name _ _ _ _ _ r hr))
    · exact Or.inr (Or.inr (tryTok_name _ _ _ _ _ out h))

theorem splitModes_keys (fuel : ℕ) (prev : Option Char) (acc s : List Char) :
    ∀ q ∈ (splitModes fuel prev acc s).2,
      q.1 = nameSOLO ∨ q.1 = nameDUO ∨ q.1 = nameSQUAD := by
  induction fuel generalizing prev acc s with
  | zero =>
    intro q hq
    simp [splitModes] at hq
  | succ n ih =>
    intro q hq
    unfold splitModes at hq
    cases s with
    | nil => simp at hq
    | cons c rest =>
      simp only [] at hq
      cases htok : tryModeToken prev (c :: rest) with
      | none =>
        rw [htok] at hq
        simp at hq
        exact ih _ _ _ q hq
      | some out =>
        obtain ⟨name, lastc, rest'⟩ := out
        rw [htok] at hq
        simp at hq
        rcases hq with hq | hq
        · rw [hq]
          exact tryModeToken_name _ _ _ htok
        · exact ih _ _ _ q hq

/-- The invariant every entry of a parsed mode mapping satisfies. -/
def entryOk (p : String × ModeStats) : Prop :=
  (p.1 = nameSOLO ∨ p.1 = nameDUO ∨ p.1 = nameSQUAD) ∧
    (0 ≤ p.2.games ∧ 0 ≤ p.2.kills ∧ 0 ≤ p.2.win_pct ∧
      0 ≤ p.2.avg_survived_sec ∧ 0 ≤ p.2.avg_damage)

theorem dictInsert_entries (k : String) (v : ModeStats)
    (l : List (String × ModeStats)) (hl : ∀ p ∈ l, entryOk p)
    (hkv : entryOk (k, v)) : ∀ p ∈ dictInsert k v l, entryOk p := by
  intro p hp
  unfold dictInsert at hp
  split at hp
  · rcases List.mem_map.mp hp with ⟨q, hq, hqe⟩
    by_cases hqk : (q.1 == k) = true
    · rw [if_pos hqk] at hqe
      exact hqe ▸ hkv
    · rw [if_neg hqk] at hqe
      exact hqe ▸ hl q hq
  · rcases List.mem_append.mp hp with hp1 | hp1
    · exact hl p hp1
    · simp at hp1
      exact hp1 ▸ hkv

theorem buildModes_entries (segs : List (String × List Char)) :
    ∀ acc res, buildModes segs acc = .ok res →
      (∀ q ∈ segs, q.1 = nameSOLO ∨ q.1 = nameDUO ∨ q.1 = nameSQUAD) →
      (∀ p ∈ acc, entryOk p) → ∀ p ∈ res, entryOk p := by
  induction segs with
  | nil =>
    intro acc res h _ hacc
    unfold buildModes at h
    injection h with h'
    exact h' ▸ hacc
  | cons q rest ih =>
    intro acc res h hseg hacc
    obtain ⟨m, b⟩ := q
    unfold buildModes at h
    split at h
    · simp at h
    · exact ih _ _ h (fun q' hq' => hseg q' (List.mem_cons_of_mem _ hq')) hacc
    · rename_i ms hms
      refine ih _ _ h (fun q' hq' => hseg q' (List.mem_cons_of_mem _ hq')) ?_
      refine dictInsert_entries m ms acc hacc ⟨?_, parse_stats_nonneg b ms hms⟩
      exact hseg (m, b) (List.mem_cons_self _ _)

def txtC5 : List Char := ( "DUO 10 GAMES KILLS 5 WIN % 20.7 AVG SURVIVED 2:37" ).toList

def txtC8 : List Char :=
  ( "KILLS 120 K/G 1.2 WIN % 20.7 AVG SURVIVED 2:37 AVG DAMAGE 432" ).toList

def msC8 : ModeStats := ⟨100, 120, 207 / 10, 157, 432⟩

def txtC10 : List Char :=
  ( "SOLO 280 GAMES KILLS 1062 WIN % 20.7 AVG SURVIVED 2:37 AVG DAMAGE 432" ).toList

def msC10 : ModeStats := ⟨280, 1062, 207 / 10, 157, 432⟩

def txtC7comma : List Char :=
  ( "10 GAMES KILLS 5 WIN 20,7 AVG SURVIVED 2:37 AVG DAMAGE 432" ).toList

def txtC7dot : List Char :=
  ( "10 GAMES KILLS 5 WIN 20.7 AVG SURVIVED 2:37 AVG DAMAGE 432" ).toList

def txtC7bad : List Char :=
  ( "10 GAMES KILLS 5 WIN ,, AVG SURVIVED 2:37 AVG DAMAGE 432" ).toList

def msC7 : ModeStats := ⟨10, 5, 207 / 10, 157, 432⟩

/-- C5: extraction is all-or-nothing per mode block — `parse_stats_in_text`
returns a record exactly when all five fields resolved (fallback included),
never a partial record; and a DUO block with no AVG DAMAGE token yields a
mapping with no DUO entry. -/
theorem spec_C5_all_or_nothing (s : List Char) (ms : ModeStats) :
    (parse_stats_in_text s = .ok (some ms) ↔
      ∃ g k w t d, gamesFull s = .ok (some g) ∧ killsRes s = some k ∧
        winRes s = .ok (some w) ∧ timeRes s = some t ∧ dmgRes s = .ok (some d) ∧
        ms = ⟨pyRound g, pyRound k, w, t, d⟩) ∧
    parse_block txtC5 = .ok [] :=
  ⟨parse_stats_ok_some_iff s ms, by decide⟩

/-- C6: the extraction core is *not* total — on the input `"WIN."` the
win-percentage pattern captures the group `"."` and `float(".")` raises a
`ValueError`, so `parse_block` raises instead of returning a mapping. -/
theorem spec_C6_extract_raises :
    parse_block (( "WIN." ).toList) = .error () := by decide

/-- C8: with no direct games token but kills and a nonzero K/G ratio
found, the stored games field is `kills / ratio`, rounded. -/
theorem spec_C8_kg_fallback (s : List Char) (k r : ℚ) (ms : ModeStats)
    (h1 : gamesDirect s = none) (h2 : killsRes s = some k)
    (h3 : kgRes s = .ok (some r)) (h4 : r ≠ 0)
    (h5 : parse_stats_in_text s = .ok (some ms)) :
    ms.games = pyRound (k / r) := by
  have hgf : gamesFull s = .ok (some (k / r)) := by
    simp only [gamesFull, h1, h3, h2, if_neg h4]
  rcases (parse_stats_ok_some_iff s ms).mp h5 with ⟨g, k', w, t, d, hg, _, _, _, _, hms⟩
  rw [hgf] at hg
  have hgv : k / r = g := by
    injection hg with h'
    injection h'
  rw [hms, ← hgv]

theorem spec_C8_witness : msC8.games = pyRound (120 / (6 / 5)) :=
  spec_C8_kg_fallback txtC8 120 (6 / 5) msC8 (by with_unfolding_all rfl)
    (by with_unfolding_all rfl) (by with_unfolding_all rfl) (by norm_num)
    (by with_unfolding_all rfl)

/-- C7: the variant's numeric parse is locale-tolerant — `20,7` and `20.7`
extract to the same record — and a bad kills-per-game ratio is treated as
absent; but a winPct capture that fails to parse after substitution makes
the conversion raise (`float(None)`), the code-bug behind the claim's
"treated as absent" clause. -/
theorem spec_C7_locale_and_crash :
    p0_parse_stats_in_text txtC7comma = .ok (some msC7) ∧
    p0_parse_stats_in_text txtC7dot = .ok (some msC7) ∧
    p0_num (( "20,7" ).toList) = p0_num (( "20.7" ).toList) ∧
    p0_num (( ",," ).toList) = none ∧
    p0_parse_stats_in_text txtC7bad = .error () :=
  ⟨by with_unfolding_all rfl, by with_unfolding_all rfl, by with_unfolding_all rfl,
    by decide, by decide⟩

/-- C10: every mapping `parse_block` returns has keys drawn from
SOLO/DUO/SQUAD only, and every stored `ModeStats` satisfies the data-model
invariant (integer counts and seconds non-negative, win percentage and
average damage non-negative). -/
theorem spec_C10_invariants (raw : List Char) (m : List (String × ModeStats))
    (h : parse_block raw = .ok m) :
    ∀ p ∈ m, (p.1 = nameSOLO ∨ p.1 = nameDUO ∨ p.1 = nameSQUAD) ∧
      (0 ≤ p.2.games ∧ 0 ≤ p.2.kills ∧ 0 ≤ p.2.win_pct ∧
        0 ≤ p.2.avg_survived_sec ∧ 0 ≤ p.2.avg_damage) := by
  simp only [parse_block] at h
  split at h
  · split at h
    · simp at h
    · have hm : m = ([] : List (String × ModeStats)) := by
        injection h with h'
        exact h'.symm
      subst hm
      intro p hp
      simp at hp
    · rename_i ms hms
      have hm : m = [(nameSOLO, ms)] := by
        injection h with h'
        exact h'.symm
      subst hm
      intro p hp
      simp at hp
      subst hp
      exact ⟨Or.inl rfl, parse_stats_nonneg _ ms hms⟩
  · rename_i q qs heq
    intro p hp
    refine buildModes_entries _ _ _ h ?_ (by simp) p hp
    intro q' hq'
    exact splitModes_keys _ _ _ _ q' hq'

theorem spec_C10_witness :
    (((nameSOLO, msC10) : String × ModeStats).1 = nameSOLO ∨
      ((nameSOLO, msC10) : String × ModeStats).1 = nameDUO ∨
      ((nameSOLO, msC10) : String × ModeStats).1 = nameSQUAD) ∧
    (0 ≤ ((nameSOLO, msC10) : String × ModeStats).2.games ∧
      0 ≤ ((nameSOLO, msC10) : String × ModeStats).2.kills ∧
      0 ≤ ((nameSOLO, msC10) : String × ModeStats).2.win_pct ∧
      0 ≤ ((nameSOLO, msC10) : String × ModeStats).2.avg_survived_sec ∧
      0 ≤ ((nameSOLO, msC10) : String × ModeStats).2.avg_damage) :=
  spec_C10_invariants txtC10 [(nameSOLO, msC10)] (by with_unfolding_all rfl)
    (nameSOLO, msC10) (by simp)
